import Mathlib

/-!
Shallow embedding of the event-participation core of the MeetHere backend
(src/backend/main.py, src/backend/models.py, src/backend/schemas.py).

User ids and event ids are integers, timestamps are modelled as integers,
strings stay strings.  Nullable database columns become `Option`.
The SQLAlchemy JSON column holding the participant ids is a Python list,
so `participants` is a `List Int` here, and the operations mirror the
Python list operations (`in`, `append`, `remove`) exactly.
-/

/-- Database row for an event, mirroring `EventDB` in src/backend/models.py
(lines 34-48).  `created_at` / `updated_at` bookkeeping columns are omitted:
no endpoint reads them. -/
structure EventDB where
  id : Int
  title : String
  description : String
  location : String
  event_date : Int
  created_by : Int
  is_active : Bool
  max_participants : Option Int
  image_url : Option String
  participants : List Int
deriving Repr, DecidableEq

/-- Database row for a user, mirroring `UserDB` in src/backend/models.py
(lines 7-25).  The password hash and timestamps are omitted: the event and
profile endpoints never read them. -/
structure UserDB where
  id : Int
  username : String
  email : String
  is_active : Bool
  is_admin : Bool
  birth_date : Option Int
  gender : Option String
  interests : List String
  joined_groups : List Int
  onboarding_completed : Option Bool
  profile_photo : Option String
deriving Repr, DecidableEq

/-- Request body for event creation, mirroring `EventCreate` / `EventBase`
in src/backend/schemas.py (lines 78-87). -/
structure EventCreate where
  title : String
  description : String
  location : String
  event_date : Int
  max_participants : Option Int
  image_url : Option String
deriving Repr, DecidableEq

/-- Request body for a partial event update, mirroring `EventUpdate` in
src/backend/schemas.py (lines 89-96) together with pydantic's
`model_dump(exclude_unset=True)` semantics used in `update_event`:
an outer `none` means the field was not supplied in the request, an outer
`some` carries the supplied value (itself `Option` for nullable columns). -/
structure EventUpdate where
  title : Option String
  description : Option String
  location : Option String
  event_date : Option Int
  is_active : Option Bool
  max_participants : Option (Option Int)
  image_url : Option (Option String)
deriving Repr, DecidableEq

/-- Request body for a partial profile update, mirroring `UserProfileUpdate`
in src/backend/schemas.py (lines 34-40); `update_user_profile` treats a field
that is `None` as not supplied, so `none` means "not supplied". -/
structure UserProfileUpdate where
  birth_date : Option Int
  gender : Option String
  interests : Option (List String)
  joined_groups : Option (List Int)
  onboarding_completed : Option Bool
  profile_photo : Option String
deriving Repr, DecidableEq

/-- Outcome of the join endpoint body: the "Already joined this event"
message, the 400 "Event is full" error, or the success message. -/
inductive JoinResult where
  | alreadyJoined
  | eventFull
  | joined
deriving Repr, DecidableEq

/-- Outcome of the leave endpoint body: the "Not joined this event" message,
the 400 "Event creator cannot leave the event" error, or the success
message. -/
inductive LeaveResult where
  | notJoined
  | creatorCannotLeave
  | left
deriving Repr, DecidableEq

/-- HTTP-level errors raised by the event endpoints. -/
inductive ApiError where
  | notFound
  | forbidden
  | unauthenticated
  | eventFull
  | creatorCannotLeave
deriving Repr, DecidableEq

/-- The capacity guard of `join_event` (src/backend/main.py line 486):
`if db_event.max_participants and len(db_event.participants) >= db_event.max_participants`.
Python truthiness makes both `None` and `0` skip the length comparison. -/
def capacityFull (cap : Option Int) (count : Nat) : Bool :=
  match cap with
  | none => false
  | some n => if n = 0 then false else decide ((count : Int) ≥ n)

/-- Body of `create_event` (src/backend/main.py lines 366-380): the new row
copies the request fields, sets `created_by` to the current user and starts
the participant list as `[current_user.id]`; `is_active` defaults to `True`
(src/backend/models.py line 45).  `eid` stands for the id the database
assigns. -/
def create_event (ec : EventCreate) (uid : Int) (eid : Int) : EventDB :=
  { id := eid
    title := ec.title
    description := ec.description
    location := ec.location
    event_date := ec.event_date
    created_by := uid
    is_active := true
    max_participants := ec.max_participants
    image_url := ec.image_url
    participants := [uid] }

/-- Body of `join_event` after the event lookup (src/backend/main.py lines
481-493): membership check first, then the capacity guard, then
`participants.append(current_user.id)`. -/
def join_event (e : EventDB) (uid : Int) : JoinResult × EventDB :=
  if uid ∈ e.participants then (.alreadyJoined, e)
  else if capacityFull e.max_participants e.participants.length then (.eventFull, e)
  else (.joined, { e with participants := e.participants ++ [uid] })

/-- Body of `leave_event` after the event lookup (src/backend/main.py lines
506-518): membership check first, then the creator check, then
`participants.remove(current_user.id)` (Python removes the first
occurrence, i.e. `List.erase`). -/
def leave_event (e : EventDB) (uid : Int) : LeaveResult × EventDB :=
  if uid ∈ e.participants then
    if e.created_by = uid then (.creatorCannotLeave, e)
    else (.left, { e with participants := e.participants.erase uid })
  else (.notJoined, e)

/-- Field-wise application of an `EventUpdate`, mirroring the
`for key, value in update_data.items(): setattr(db_event, key, value)` loop
of `update_event` (src/backend/main.py lines 441-443) where `update_data`
holds exactly the supplied fields. -/
def applyEventUpdate (e : EventDB) (u : EventUpdate) : EventDB :=
  { e with
    title := u.title.getD e.title
    description := u.description.getD e.description
    location := u.location.getD e.location
    event_date := u.event_date.getD e.event_date
    is_active := u.is_active.getD e.is_active
    max_participants := u.max_participants.getD e.max_participants
    image_url := u.image_url.getD e.image_url }

/-- Body of `update_event` after the event lookup (src/backend/main.py lines
436-447): the permission check, then the partial update. -/
def update_event (e : EventDB) (user : UserDB) (upd : EventUpdate) :
    Except ApiError EventDB :=
  if e.created_by ≠ user.id ∧ ¬ user.is_admin then .error .forbidden
  else .ok (applyEventUpdate e upd)

/-- Body of `delete_event` after the event lookup (src/backend/main.py lines
460-466): the permission check, then `db_event.is_active = False`. -/
def delete_event (e : EventDB) (user : UserDB) : Except ApiError EventDB :=
  if e.created_by ≠ user.id ∧ ¬ user.is_admin then .error .forbidden
  else .ok { e with is_active := false }

/-- Body of `update_user_profile` (src/backend/main.py lines 211-253): each
field is written only when the request supplies it (`is not None`). -/
def update_user_profile (u : UserDB) (p : UserProfileUpdate) : UserDB :=
  { u with
    birth_date := match p.birth_date with | some v => some v | none => u.birth_date
    gender := match p.gender with | some v => some v | none => u.gender
    interests := p.interests.getD u.interests
    joined_groups := p.joined_groups.getD u.joined_groups
    onboarding_completed :=
      match p.onboarding_completed with | some v => some v | none => u.onboarding_completed
    profile_photo := match p.profile_photo with | some v => some v | none => u.profile_photo }

/-- One mutating request aimed at a single already-created event; the
per-operation handlers are the endpoint bodies above. -/
inductive EvOp where
  | join (uid : Int)
  | leave (uid : Int)
  | edit (user : UserDB) (upd : EventUpdate)
  | softDelete (user : UserDB)

/-- Effect of one operation on the stored event row: a rejected request
(HTTP error) leaves the row untouched because the handler raises before
`db.commit()`. -/
def evStep (e : EventDB) : EvOp → EventDB
  | .join uid => (join_event e uid).2
  | .leave uid => (leave_event e uid).2
  | .edit user upd =>
      match update_event e user upd with
      | .ok e2 => e2
      | .error _ => e
  | .softDelete user =>
      match delete_event e user with
      | .ok e2 => e2
      | .error _ => e

/-- Run a sequence of operations against a stored event row. -/
def runOps (e : EventDB) (ops : List EvOp) : EventDB := ops.foldl evStep e

/-- An event row is reachable when some sequence of operations produces it
from a freshly created event. -/
def Reachable (e : EventDB) : Prop :=
  ∃ ec creator eid ops, e = runOps (create_event ec creator eid) ops

/-- The events table: the rows currently stored. -/
abbrev EventStore := List EventDB

/-- The lookup `db.query(EventDB).filter(EventDB.id == event_id).first()`
used by every per-event endpoint. -/
def findEvent (db : EventStore) (eid : Int) : Option EventDB :=
  db.find? (fun e => e.id == eid)

/-- Committing a mutation of the row with id `eid`: the ORM writes the
mutated object back to the row with that primary key. -/
def updateStore (db : EventStore) (eid : Int) (e2 : EventDB) : EventStore :=
  db.map (fun e => if e.id == eid then e2 else e)

/-- `get_event` (src/backend/main.py lines 414-422): look the row up by id —
with no filter on `is_active` and, notably, no authentication dependency —
and 404 when absent. -/
def get_event (db : EventStore) (event_id : Int) : Except ApiError EventDB :=
  match findEvent db event_id with
  | none => .error .notFound
  | some e => .ok e

/-- Body of `get_events` (src/backend/main.py lines 383-411): keep active
rows, apply the optional filter variant, sort ascending by date, then
offset/limit pagination. -/
def get_events (db : EventStore) (skip limit : Nat) (filter_type : Option String)
    (uid : Int) (now : Int) : List EventDB :=
  let q := db.filter (fun e : EventDB => e.is_active)
  let q :=
    match filter_type with
    | some "my" => q.filter (fun e : EventDB => e.created_by == uid)
    | some "joined" => q.filter (fun e : EventDB => decide (uid ∈ e.participants))
    | some "upcoming" => q.filter (fun e : EventDB => decide (e.event_date ≥ now))
    | some "past" => q.filter (fun e : EventDB => decide (e.event_date < now))
    | _ => q
  let q := q.mergeSort (fun a b => decide (a.event_date ≤ b.event_date))
  (q.drop skip).take limit

/-- One request of the event-registry HTTP surface, src/backend/main.py
lines 366-518.  `newId` in `createEvent` stands for the id the database
assigns to the inserted row. -/
inductive Request where
  | getEvent (eid : Int)
  | listEvents (skip limit : Nat) (filter_type : Option String)
  | createEvent (ec : EventCreate) (newId : Int)
  | updateEvent (eid : Int) (upd : EventUpdate)
  | deleteEvent (eid : Int)
  | joinEvent (eid : Int)
  | leaveEvent (eid : Int)
deriving Repr, DecidableEq

/-- Response payloads of the event endpoints. -/
inductive Response where
  | event (e : EventDB)
  | events (es : List EventDB)
  | message (s : String)
deriving Repr, DecidableEq

/-- Modelled from the spec: the auth gate (`get_current_active_user` lives in
backend/auth.py, which is not part of the sources here).  "Given a bearer
token, resolve to a user record or fail with `Unauthenticated`": `auth` is
the resolved user, `none` when the request carries no token that resolves to
a user record.  Endpoints that declare the dependency run their body only on
`some`. -/
def requireAuth (auth : Option UserDB) (db : EventStore)
    (k : UserDB → Except ApiError Response × EventStore) :
    Except ApiError Response × EventStore :=
  match auth with
  | none => (.error .unauthenticated, db)
  | some u => k u

/-- Dispatcher for the event-registry routes of src/backend/main.py.  Every
handler there except `get_event` declares the
`current_user: UserDB = Depends(get_current_active_user)` dependency;
`get_event` (lines 414-418) does not, so its branch never consults `auth`.
Each per-event handler first runs the id lookup (404 when absent), then the
body embedded above; a successful mutation is committed with
`updateStore`. -/
def handle (db : EventStore) (auth : Option UserDB) (now : Int) :
    Request → Except ApiError Response × EventStore
  | .getEvent eid =>
      match get_event db eid with
      | .error err => (.error err, db)
      | .ok e => (.ok (.event e), db)
  | .listEvents skip limit filter_type =>
      requireAuth auth db (fun u =>
        (.ok (.events (get_events db skip limit filter_type u.id now)), db))
  | .createEvent ec newId =>
      requireAuth auth db (fun u =>
        let e := create_event ec u.id newId
        (.ok (.event e), db ++ [e]))
  | .updateEvent eid upd =>
      requireAuth auth db (fun u =>
        match findEvent db eid with
        | none => (.error .notFound, db)
        | some e =>
            match update_event e u upd with
            | .error err => (.error err, db)
            | .ok e2 => (.ok (.event e2), updateStore db eid e2))
  | .deleteEvent eid =>
      requireAuth auth db (fun u =>
        match findEvent db eid with
        | none => (.error .notFound, db)
        | some e =>
            match delete_event e u with
            | .error err => (.error err, db)
            | .ok e2 => (.ok (.message "Event successfully deleted"), updateStore db eid e2))
  | .joinEvent eid =>
      requireAuth auth db (fun u =>
        match findEvent db eid with
        | none => (.error .notFound, db)
        | some e =>
            match join_event e u.id with
            | (.alreadyJoined, _) => (.ok (.message "Already joined this event"), db)
            | (.eventFull, _) => (.error .eventFull, db)
            | (.joined, e2) =>
                (.ok (.message "Successfully joined the event"), updateStore db eid e2))
  | .leaveEvent eid =>
      requireAuth auth db (fun u =>
        match findEvent db eid with
        | none => (.error .notFound, db)
        | some e =>
            match leave_event e u.id with
            | (.notJoined, _) => (.ok (.message "Not joined this event"), db)
            | (.creatorCannotLeave, _) => (.error .creatorCannotLeave, db)
            | (.left, e2) =>
                (.ok (.message "Successfully left the event"), updateStore db eid e2))

/-- A creation request with empty descriptive fields and no capacity. -/
def emptyCreate : EventCreate := ⟨"", "", "", 0, none, none⟩

/-- A creation request with empty descriptive fields and `max_participants = 0`. -/
def zeroCapCreate : EventCreate := ⟨"", "", "", 0, some 0, none⟩

/-- A creation request with empty descriptive fields and `max_participants = 2`. -/
def twoCapCreate : EventCreate := ⟨"", "", "", 0, some 2, none⟩

/-- The event user 1 creates with `max_participants = 0`: participant list `[1]`. -/
def eventCapZero : EventDB := create_event zeroCapCreate 1 20

/-- The event user 1 creates with no capacity, after user 2 joins:
participant list `[1, 2]`. -/
def eventOneTwo : EventDB := runOps (create_event emptyCreate 1 10) [.join 2]

/-- The event user 1 creates with `max_participants = 2`, after user 2 joins:
participant list `[1, 2]`, capacity 2. -/
def eventCapTwoFull : EventDB := runOps (create_event twoCapCreate 1 30) [.join 2]

/-- User 1's database row (an ordinary active non-admin user). -/
def user1 : UserDB := ⟨1, "u1", "u1@x", true, false, none, none, [], [], none, none⟩

/-- User 2's database row (an ordinary active non-admin user). -/
def user2 : UserDB := ⟨2, "u2", "u2@x", true, false, none, none, [], [], none, none⟩

/-- An update request that only lowers `max_participants` to 1. -/
def capOneUpdate : EventUpdate := ⟨none, none, none, none, none, some (some 1), none⟩

/-- An update request that does not supply any field. -/
def emptyUpdate : EventUpdate := ⟨none, none, none, none, none, none, none⟩

/-- The event user 1 creates with `max_participants = 2` after user 2 joins and
the creator then edits the capacity down to 1: participant list `[1, 2]`,
capacity 1. -/
def eventShrunk : EventDB :=
  runOps (create_event twoCapCreate 1 40) [.join 2, .edit user1 capOneUpdate]

/-- An update request that supplies every event field. -/
def fullUpdate : EventUpdate :=
  ⟨some "T", some "D", some "L", some 5, some false, some (some 7), some (some "img")⟩

/-- A profile update request that supplies no field. -/
def emptyProfileUpdate : UserProfileUpdate := ⟨none, none, none, none, none, none⟩

/-- A profile update request that supplies every field. -/
def fullProfileUpdate : UserProfileUpdate :=
  ⟨some 7, some "g", some ["music"], some [3], some true, some "photo"⟩

lemma join_event_snd_created_by (e : EventDB) (uid : Int) :
    (join_event e uid).2.created_by = e.created_by := by
  unfold join_event
  split
  · rfl
  · split <;> rfl

lemma join_event_mem_participants (e : EventDB) (uid x : Int)
    (h : x ∈ e.participants) : x ∈ (join_event e uid).2.participants := by
  unfold join_event
  split
  · exact h
  · split
    · exact h
    · exact List.mem_append_left _ h

lemma join_event_nodup (e : EventDB) (uid : Int) (h : e.participants.Nodup) :
    (join_event e uid).2.participants.Nodup := by
  unfold join_event
  split
  · exact h
  · split
    · exact h
    · rename_i hnot _
      simpa [List.nodup_append] using ⟨h, hnot⟩

lemma leave_event_snd_created_by (e : EventDB) (uid : Int) :
    (leave_event e uid).2.created_by = e.created_by := by
  unfold leave_event
  split
  · split <;> rfl
  · rfl

lemma leave_event_creator_mem (e : EventDB) (uid : Int)
    (h : e.created_by ∈ e.participants) :
    e.created_by ∈ (leave_event e uid).2.participants := by
  unfold leave_event
  split
  · split
    · exact h
    · rename_i hne
      exact (List.mem_erase_of_ne hne).mpr h
  · exact h

lemma leave_event_nodup (e : EventDB) (uid : Int) (h : e.participants.Nodup) :
    (leave_event e uid).2.participants.Nodup := by
  unfold leave_event
  split
  · split
    · exact h
    · exact h.erase uid
  · exact h

lemma update_event_ok_frame (e : EventDB) (user : UserDB) (upd : EventUpdate)
    (e2 : EventDB) (h : update_event e user upd = .ok e2) :
    e2.created_by = e.created_by ∧ e2.participants = e.participants ∧ e2.id = e.id := by
  unfold update_event at h
  split at h
  · exact absurd h (by simp)
  · cases h
    exact ⟨rfl, rfl, rfl⟩

lemma delete_event_snd_frame (e : EventDB) (user : UserDB) (e2 : EventDB)
    (h : delete_event e user = .ok e2) :
    e2.created_by = e.created_by ∧ e2.participants = e.participants ∧ e2.id = e.id := by
  unfold delete_event at h
  split at h
  · exact absurd h (by simp)
  · cases h
    exact ⟨rfl, rfl, rfl⟩

lemma evStep_created_by (e : EventDB) (op : EvOp) :
    (evStep e op).created_by = e.created_by := by
  cases op with
  | join uid => exact join_event_snd_created_by e uid
  | leave uid => exact leave_event_snd_created_by e uid
  | edit user upd =>
      simp only [evStep]
      split
      · next e2 heq => exact (update_event_ok_frame e user upd e2 heq).1
      · rfl
  | softDelete user =>
      simp only [evStep]
      split
      · next e2 heq => exact (delete_event_snd_frame e user e2 heq).1
      · rfl

lemma evStep_creator_mem (e : EventDB) (op : EvOp)
    (h : e.created_by ∈ e.participants) :
    (evStep e op).created_by ∈ (evStep e op).participants := by
  cases op with
  | join uid =>
      have hc : (evStep e (.join uid)).created_by = e.created_by :=
        join_event_snd_created_by e uid
      rw [hc]
      exact join_event_mem_participants e uid _ h
  | leave uid =>
      have hc : (evStep e (.leave uid)).created_by = e.created_by :=
        leave_event_snd_created_by e uid
      rw [hc]
      exact leave_event_creator_mem e uid h
  | edit user upd =>
      simp only [evStep]
      split
      · next e2 heq =>
          obtain ⟨h1, h2, _⟩ := update_event_ok_frame e user upd e2 heq
          rw [h1, h2]
          exact h
      · exact h
  | softDelete user =>
      simp only [evStep]
      split
      · next e2 heq =>
          obtain ⟨h1, h2, _⟩ := delete_event_snd_frame e user e2 heq
          rw [h1, h2]
          exact h
      · exact h

lemma evStep_nodup (e : EventDB) (op : EvOp) (h : e.participants.Nodup) :
    (evStep e op).participants.Nodup := by
  cases op with
  | join uid => exact join_event_nodup e uid h
  | leave uid => exact leave_event_nodup e uid h
  | edit user upd =>
      simp only [evStep]
      split
      · next e2 heq =>
          rw [(update_event_ok_frame e user upd e2 heq).2.1]
          exact h
      · exact h
  | softDelete user =>
      simp only [evStep]
      split
      · next e2 heq =>
          rw [(delete_event_snd_frame e user e2 heq).2.1]
          exact h
      · exact h

lemma runOps_cons (e : EventDB) (op : EvOp) (ops : List EvOp) :
    runOps e (op :: ops) = runOps (evStep e op) ops := rfl

lemma runOps_created_by (e : EventDB) (ops : List EvOp) :
    (runOps e ops).created_by = e.created_by := by
  induction ops generalizing e with
  | nil => rfl
  | cons op ops ih => rw [runOps_cons, ih, evStep_created_by]

lemma runOps_creator_mem (e : EventDB) (ops : List EvOp)
    (h : e.created_by ∈ e.participants) :
    (runOps e ops).created_by ∈ (runOps e ops).participants := by
  induction ops generalizing e with
  | nil => exact h
  | cons op ops ih => exact ih (evStep e op) (evStep_creator_mem e op h)

lemma runOps_nodup (e : EventDB) (ops : List EvOp) (h : e.participants.Nodup) :
    (runOps e ops).participants.Nodup := by
  induction ops generalizing e with
  | nil => exact h
  | cons op ops ih => exact ih (evStep e op) (evStep_nodup e op h)

lemma reachable_nodup (e : EventDB) (h : Reachable e) : e.participants.Nodup := by
  obtain ⟨ec, creator, eid, ops, rfl⟩ := h
  exact runOps_nodup _ ops (by simp [create_event])

lemma reachable_creator_mem (e : EventDB) (h : Reachable e) :
    e.created_by ∈ e.participants := by
  obtain ⟨ec, creator, eid, ops, rfl⟩ := h
  have := runOps_creator_mem (create_event ec creator eid) ops
    (by simp [create_event])
  exact this

/-- C3: every event row reachable from `create_event` by any sequence of
join, leave, edit and soft-delete operations still has its creator's id as
`created_by`, and that id is a member of the participant list: no operation
removes the creator. -/
theorem C3_creator_always_participant (ec : EventCreate) (creator eid : Int)
    (ops : List EvOp) :
    (runOps (create_event ec creator eid) ops).created_by = creator ∧
    creator ∈ (runOps (create_event ec creator eid) ops).participants := by
  have h1 : (runOps (create_event ec creator eid) ops).created_by = creator := by
    rw [runOps_created_by]
    rfl
  refine ⟨h1, ?_⟩
  have h2 := runOps_creator_mem (create_event ec creator eid) ops (by simp [create_event])
  rwa [h1] at h2

/-- C10: when `max_participants` is 0 the capacity guard is skipped (Python
truthiness), so a user who is not yet a participant is always added, never
rejected with EventFull. -/
theorem C10_zero_capacity_never_full (e : EventDB) (uid : Int)
    (hcap : e.max_participants = some 0) (hmem : uid ∉ e.participants) :
    join_event e uid = (.joined, { e with participants := e.participants ++ [uid] }) := by
  unfold join_event
  rw [if_neg hmem, hcap]
  simp [capacityFull]

theorem C10_zero_capacity_never_full_witness :
    join_event eventCapZero 2
      = (.joined, { eventCapZero with participants := eventCapZero.participants ++ [2] }) :=
  C10_zero_capacity_never_full eventCapZero 2 (by rfl) (by decide)

/-- C2 as written is false: with `max_participants` set to 0 the capacity is
set and the participant count (1) is ≥ 0, so the claim demands EventFull,
but `join_event` skips the zero capacity (Python truthiness) and adds the
user. -/
theorem C2_counterexample :
    eventCapZero.max_participants = some 0 ∧
    (eventCapZero.participants.length : Int) ≥ 0 ∧
    (2 : Int) ∉ eventCapZero.participants ∧
    join_event eventCapZero 2 ≠ (.eventFull, eventCapZero) ∧
    (join_event eventCapZero 2).2.participants = [1, 2] := by
  decide

/-- C2 amended: `join_event` returns the AlreadyJoined no-op when the user is
a participant; fails with EventFull when a nonzero capacity is set and the
participant count is at least that capacity; and otherwise (capacity unset,
zero, or not yet reached) appends exactly that user. -/
theorem C2_join_event_cases (e : EventDB) (uid : Int) :
    (uid ∈ e.participants → join_event e uid = (.alreadyJoined, e)) ∧
    (uid ∉ e.participants →
      ∀ n, e.max_participants = some n → n ≠ 0 → (e.participants.length : Int) ≥ n →
        join_event e uid = (.eventFull, e)) ∧
    (uid ∉ e.participants →
      (∀ n, e.max_participants = some n → n ≠ 0 → (e.participants.length : Int) < n) →
        join_event e uid = (.joined, { e with participants := e.participants ++ [uid] })) := by
  refine ⟨fun hmem => ?_, fun hmem n hcap hnz hge => ?_, fun hmem hlt => ?_⟩
  · unfold join_event
    rw [if_pos hmem]
  · unfold join_event
    rw [if_neg hmem, hcap]
    simp [capacityFull, hnz, hge]
  · unfold join_event
    rw [if_neg hmem]
    have hcf : capacityFull e.max_participants e.participants.length = false := by
      cases hmp : e.max_participants with
      | none => rfl
      | some n =>
          by_cases hz : n = 0
          · simp [capacityFull, hz]
          · simp [capacityFull, hz, not_le.mpr (hlt n hmp hz)]
    rw [hcf]
    simp

theorem C2_join_event_cases_witness :
    join_event eventCapTwoFull 1 = (.alreadyJoined, eventCapTwoFull) ∧
    join_event eventCapTwoFull 3 = (.eventFull, eventCapTwoFull) ∧
    join_event eventOneTwo 3
      = (.joined, { eventOneTwo with participants := eventOneTwo.participants ++ [3] }) := by
  refine ⟨?_, ?_, ?_⟩
  · exact (C2_join_event_cases eventCapTwoFull 1).1 (by decide)
  · exact (C2_join_event_cases eventCapTwoFull 3).2.1 (by decide) 2 (by rfl) (by decide)
      (by decide)
  · exact (C2_join_event_cases eventOneTwo 3).2.2 (by decide)
      (fun n hn => by simp [eventOneTwo, runOps, evStep, join_event, create_event,
        emptyCreate, capacityFull] at hn)

/-- C4: for a reachable event row, `leave_event` returns the NotJoined no-op
when the user is not a participant, fails with CreatorCannotLeave (row
unchanged) when the user is the creator, and otherwise removes exactly that
user from the participant list. -/
theorem C4_leave_event_cases (e : EventDB) (uid : Int) (hr : Reachable e) :
    (uid ∉ e.participants → leave_event e uid = (.notJoined, e)) ∧
    (uid ∈ e.participants → e.created_by = uid →
      leave_event e uid = (.creatorCannotLeave, e)) ∧
    (uid ∈ e.participants → e.created_by ≠ uid →
      (leave_event e uid).1 = .left ∧
      ∀ x, x ∈ (leave_event e uid).2.participants ↔ x ∈ e.participants ∧ x ≠ uid) := by
  refine ⟨fun hmem => ?_, fun hmem hcr => ?_, fun hmem hcr => ?_⟩
  · unfold leave_event
    rw [if_neg hmem]
  · unfold leave_event
    rw [if_pos hmem, if_pos hcr]
  · unfold leave_event
    rw [if_pos hmem, if_neg hcr]
    refine ⟨rfl, fun x => ?_⟩
    have hnd := reachable_nodup e hr
    constructor
    · intro hx
      have := hnd.mem_erase_iff.mp hx
      exact ⟨this.2, this.1⟩
    · intro hx
      exact hnd.mem_erase_iff.mpr ⟨hx.2, hx.1⟩

theorem C4_leave_event_cases_witness :
    leave_event eventOneTwo 3 = (.notJoined, eventOneTwo) ∧
    leave_event eventOneTwo 1 = (.creatorCannotLeave, eventOneTwo) ∧
    (leave_event eventOneTwo 2).1 = .left ∧
    ((1 : Int) ∈ (leave_event eventOneTwo 2).2.participants ↔
      (1 : Int) ∈ eventOneTwo.participants ∧ (1 : Int) ≠ 2) := by
  have hr : Reachable eventOneTwo := ⟨emptyCreate, 1, 10, [.join 2], rfl⟩
  refine ⟨?_, ?_, ?_, ?_⟩
  · exact (C4_leave_event_cases eventOneTwo 3 hr).1 (by decide)
  · exact (C4_leave_event_cases eventOneTwo 1 hr).2.1 (by decide) (by decide)
  · exact ((C4_leave_event_cases eventOneTwo 2 hr).2.2 (by decide) (by decide)).1
  · exact ((C4_leave_event_cases eventOneTwo 2 hr).2.2 (by decide) (by decide)).2 1

lemma join_event_snd_max_participants (e : EventDB) (uid : Int) :
    (join_event e uid).2.max_participants = e.max_participants := by
  unfold join_event
  split
  · rfl
  · split <;> rfl

lemma joinAll_max_participants (uids : List Int) (e : EventDB) :
    (runOps e (uids.map EvOp.join)).max_participants = e.max_participants := by
  induction uids generalizing e with
  | nil => rfl
  | cons u us ih =>
      simp only [List.map_cons, runOps_cons]
      rw [ih (evStep e (.join u))]
      exact join_event_snd_max_participants e u

lemma join_event_count_le (N : Int) (hN : 1 ≤ N) (e : EventDB)
    (hcap : e.max_participants = some N)
    (hlen : (e.participants.length : Int) ≤ N) (uid : Int) :
    ((join_event e uid).2.participants.length : Int) ≤ N ∧
    (join_event e uid).2.max_participants = some N := by
  unfold join_event
  by_cases hmem : uid ∈ e.participants
  · rw [if_pos hmem]
    exact ⟨hlen, hcap⟩
  · rw [if_neg hmem]
    by_cases hfull : capacityFull e.max_participants e.participants.length = true
    · rw [if_pos hfull]
      exact ⟨hlen, hcap⟩
    · rw [if_neg hfull]
      refine ⟨?_, hcap⟩
      have hN0 : N ≠ 0 := by omega
      rw [hcap] at hfull
      simp only [capacityFull, if_neg hN0, decide_eq_true_eq, not_le] at hfull
      simp only [List.length_append, List.length_cons, List.length_nil]
      push_cast
      omega

lemma joinAll_count_le (N : Int) (hN : 1 ≤ N) (uids : List Int) (e : EventDB)
    (hcap : e.max_participants = some N)
    (hlen : (e.participants.length : Int) ≤ N) :
    ((runOps e (uids.map EvOp.join)).participants.length : Int) ≤ N := by
  induction uids generalizing e with
  | nil => exact hlen
  | cons u us ih =>
      simp only [List.map_cons, runOps_cons]
      have h := join_event_count_le N hN e hcap hlen u
      exact ih (evStep e (.join u)) h.2 h.1

lemma join_event_full_of_ge (e : EventDB) (uid : Int) (N : Int) (hN : 1 ≤ N)
    (hcap : e.max_participants = some N) (hmem : uid ∉ e.participants)
    (hge : (e.participants.length : Int) ≥ N) :
    (join_event e uid).1 = .eventFull := by
  unfold join_event
  rw [if_neg hmem, hcap]
  have hN0 : N ≠ 0 := by omega
  simp [capacityFull, hN0, hge]

/-- C1 as written is false at capacity 0: the row created with
`max_participants = 0` already has 1 participant, a further join is accepted
(count 2 exceeds the capacity 0); and at a full event a join by a user who is
already a participant answers AlreadyJoined, not EventFull, even though the
count is at capacity. -/
theorem C1_counterexample :
    (eventCapZero.max_participants = some 0 ∧
      (runOps eventCapZero [.join 2]).participants.length = 2) ∧
    (eventCapTwoFull.max_participants = some 2 ∧
      eventCapTwoFull.participants.length = 2 ∧
      (join_event eventCapTwoFull 1).1 ≠ .eventFull) := by
  decide

/-- C1 amended: for an event created with capacity N ≥ 1 (a capacity of 0
disables the limit), the participant count stays at most N through any
sequence of joins, and a join by a user who is not already a participant is
refused with EventFull whenever the count is at least N. -/
theorem C1_capacity_invariant (ec : EventCreate) (N : Int) (creator eid : Int)
    (uids : List Int) (hcap : ec.max_participants = some N) (hN : 1 ≤ N) :
    ((runOps (create_event ec creator eid) (uids.map EvOp.join)).participants.length : Int) ≤ N ∧
    (∀ uid,
      uid ∉ (runOps (create_event ec creator eid) (uids.map EvOp.join)).participants →
      ((runOps (create_event ec creator eid) (uids.map EvOp.join)).participants.length : Int) ≥ N →
      (join_event (runOps (create_event ec creator eid) (uids.map EvOp.join)) uid).1
        = .eventFull) := by
  have hcap0 : (create_event ec creator eid).max_participants = some N := hcap
  have hlen0 : ((create_event ec creator eid).participants.length : Int) ≤ N := by
    simp only [create_event, List.length_cons, List.length_nil]
    omega
  refine ⟨joinAll_count_le N hN uids _ hcap0 hlen0, fun uid hmem hge => ?_⟩
  have hcapN : (runOps (create_event ec creator eid) (uids.map EvOp.join)).max_participants
      = some N := by
    rw [joinAll_max_participants]
    exact hcap0
  exact join_event_full_of_ge _ uid N hN hcapN hmem hge

theorem C1_capacity_invariant_witness :
    ((runOps (create_event twoCapCreate 1 30) ([2, 3].map EvOp.join)).participants.length : Int)
        ≤ 2 ∧
    (join_event (runOps (create_event twoCapCreate 1 30) ([2, 3].map EvOp.join)) 4).1
        = .eventFull := by
  have h := C1_capacity_invariant twoCapCreate 2 1 30 [2, 3] (by rfl) (by decide)
  exact ⟨h.1, h.2 4 (by decide) (by decide)⟩

lemma erase_length_int (l : List Int) (a : Int) (ha : a ∈ l) :
    ((l.erase a).length : Int) = (l.length : Int) - 1 := by
  have h1 : 0 < l.length := List.length_pos_of_mem ha
  rw [List.length_erase_of_mem ha]
  omega

/-- C9 as written is false: the creator can edit `max_participants` below the
current participant count, after which a participant who leaves cannot
rejoin — the event answers EventFull and the prior participant set is not
restored. -/
theorem C9_counterexample :
    (2 : Int) ∈ eventShrunk.participants ∧
    eventShrunk.created_by ≠ 2 ∧
    (join_event (leave_event eventShrunk 2).2 2).1 = .eventFull ∧
    (2 : Int) ∉ (join_event (leave_event eventShrunk 2).2 2).2.participants := by
  decide

/-- C9 amended: for a reachable event and a non-creator participant,
leave followed by join by that user restores the prior participant set
(as a set of user ids), provided the capacity, when set and nonzero, is at
least the prior participant count. -/
theorem C9_leave_then_join_restores (e : EventDB) (uid : Int) (hr : Reachable e)
    (hmem : uid ∈ e.participants) (hcr : e.created_by ≠ uid)
    (hcap : ∀ n, e.max_participants = some n → n ≠ 0 →
      (e.participants.length : Int) ≤ n) :
    (leave_event e uid).1 = .left ∧
    (join_event (leave_event e uid).2 uid).1 = .joined ∧
    ∀ x, x ∈ (join_event (leave_event e uid).2 uid).2.participants ↔
      x ∈ e.participants := by
  have hnd := reachable_nodup e hr
  have hleave : leave_event e uid
      = (.left, { e with participants := e.participants.erase uid }) := by
    unfold leave_event
    rw [if_pos hmem, if_neg hcr]
  have hnomem : uid ∉ e.participants.erase uid := hnd.not_mem_erase
  have hcf : capacityFull e.max_participants (e.participants.erase uid).length = false := by
    cases hmp : e.max_participants with
    | none => rfl
    | some n =>
        by_cases hz : n = 0
        · simp [capacityFull, hz]
        · have hle := hcap n hmp hz
          have hlen := erase_length_int e.participants uid hmem
          simp only [capacityFull, if_neg hz, decide_eq_false_iff_not, not_le]
          omega
  have hjoin : join_event { e with participants := e.participants.erase uid } uid
      = (.joined, { e with participants := e.participants.erase uid ++ [uid] }) := by
    unfold join_event
    rw [if_neg hnomem, if_neg (by simp [hcf])]
  rw [hleave, hjoin]
  refine ⟨rfl, rfl, fun x => ?_⟩
  simp only [List.mem_append, List.mem_singleton, hnd.mem_erase_iff]
  constructor
  · rintro (⟨_, hx⟩ | rfl)
    · exact hx
    · exact hmem
  · intro hx
    by_cases hxe : x = uid
    · exact Or.inr hxe
    · exact Or.inl ⟨hxe, hx⟩

theorem C9_leave_then_join_restores_witness :
    (leave_event eventOneTwo 2).1 = .left ∧
    (join_event (leave_event eventOneTwo 2).2 2).1 = .joined ∧
    ((2 : Int) ∈ (join_event (leave_event eventOneTwo 2).2 2).2.participants ↔
      (2 : Int) ∈ eventOneTwo.participants) := by
  have h := C9_leave_then_join_restores eventOneTwo 2
    ⟨emptyCreate, 1, 10, [.join 2], rfl⟩ (by decide) (by decide)
    (fun n hn _ => by
      rw [show eventOneTwo.max_participants = none from rfl] at hn
      exact Option.noConfusion hn)
  exact ⟨h.1, h.2.1, h.2.2 2⟩

/-- C6: a partial event update applies exactly the supplied fields and keeps
every omitted field (and the id, creator and participant list) at its prior
value; likewise a partial profile update applies exactly the supplied
profile fields and keeps omitted fields and the account fields unchanged. -/
theorem C6_partial_update_frame :
    (∀ (e : EventDB) (user : UserDB) (upd : EventUpdate) (e2 : EventDB),
      update_event e user upd = .ok e2 →
        (upd.title = none → e2.title = e.title) ∧
        (∀ v, upd.title = some v → e2.title = v) ∧
        (upd.description = none → e2.description = e.description) ∧
        (∀ v, upd.description = some v → e2.description = v) ∧
        (upd.location = none → e2.location = e.location) ∧
        (∀ v, upd.location = some v → e2.location = v) ∧
        (upd.event_date = none → e2.event_date = e.event_date) ∧
        (∀ v, upd.event_date = some v → e2.event_date = v) ∧
        (upd.is_active = none → e2.is_active = e.is_active) ∧
        (∀ v, upd.is_active = some v → e2.is_active = v) ∧
        (upd.max_participants = none → e2.max_participants = e.max_participants) ∧
        (∀ v, upd.max_participants = some v → e2.max_participants = v) ∧
        (upd.image_url = none → e2.image_url = e.image_url) ∧
        (∀ v, upd.image_url = some v → e2.image_url = v) ∧
        e2.id = e.id ∧ e2.created_by = e.created_by ∧ e2.participants = e.participants) ∧
    (∀ (u : UserDB) (p : UserProfileUpdate),
        (p.birth_date = none → (update_user_profile u p).birth_date = u.birth_date) ∧
        (∀ v, p.birth_date = some v → (update_user_profile u p).birth_date = some v) ∧
        (p.gender = none → (update_user_profile u p).gender = u.gender) ∧
        (∀ v, p.gender = some v → (update_user_profile u p).gender = some v) ∧
        (p.interests = none → (update_user_profile u p).interests = u.interests) ∧
        (∀ v, p.interests = some v → (update_user_profile u p).interests = v) ∧
        (p.joined_groups = none → (update_user_profile u p).joined_groups = u.joined_groups) ∧
        (∀ v, p.joined_groups = some v → (update_user_profile u p).joined_groups = v) ∧
        (p.onboarding_completed = none →
          (update_user_profile u p).onboarding_completed = u.onboarding_completed) ∧
        (∀ v, p.onboarding_completed = some v →
          (update_user_profile u p).onboarding_completed = some v) ∧
        (p.profile_photo = none → (update_user_profile u p).profile_photo = u.profile_photo) ∧
        (∀ v, p.profile_photo = some v → (update_user_profile u p).profile_photo = some v) ∧
        (update_user_profile u p).id = u.id ∧
        (update_user_profile u p).username = u.username ∧
        (update_user_profile u p).email = u.email ∧
        (update_user_profile u p).is_admin = u.is_admin) := by
  constructor
  · intro e user upd e2 h
    have he2 : e2 = applyEventUpdate e upd := by
      unfold update_event at h
      split at h
      · exact absurd h (by simp)
      · cases h
        rfl
    subst he2
    exact ⟨fun h => by simp [applyEventUpdate, h], fun v h => by simp [applyEventUpdate, h],
      fun h => by simp [applyEventUpdate, h], fun v h => by simp [applyEventUpdate, h],
      fun h => by simp [applyEventUpdate, h], fun v h => by simp [applyEventUpdate, h],
      fun h => by simp [applyEventUpdate, h], fun v h => by simp [applyEventUpdate, h],
      fun h => by simp [applyEventUpdate, h], fun v h => by simp [applyEventUpdate, h],
      fun h => by simp [applyEventUpdate, h], fun v h => by simp [applyEventUpdate, h],
      fun h => by simp [applyEventUpdate, h], fun v h => by simp [applyEventUpdate, h],
      rfl, rfl, rfl⟩
  · intro u p
    exact ⟨fun h => by simp [update_user_profile, h], fun v h => by simp [update_user_profile, h],
      fun h => by simp [update_user_profile, h], fun v h => by simp [update_user_profile, h],
      fun h => by simp [update_user_profile, h], fun v h => by simp [update_user_profile, h],
      fun h => by simp [update_user_profile, h], fun v h => by simp [update_user_profile, h],
      fun h => by simp [update_user_profile, h], fun v h => by simp [update_user_profile, h],
      fun h => by simp [update_user_profile, h], fun v h => by simp [update_user_profile, h],
      rfl, rfl, rfl, rfl⟩

theorem C6_partial_update_frame_witness :
    ((applyEventUpdate eventOneTwo emptyUpdate).title = eventOneTwo.title ∧
     (applyEventUpdate eventOneTwo emptyUpdate).description = eventOneTwo.description ∧
     (applyEventUpdate eventOneTwo emptyUpdate).location = eventOneTwo.location ∧
     (applyEventUpdate eventOneTwo emptyUpdate).event_date = eventOneTwo.event_date ∧
     (applyEventUpdate eventOneTwo emptyUpdate).is_active = eventOneTwo.is_active ∧
     (applyEventUpdate eventOneTwo emptyUpdate).max_participants
        = eventOneTwo.max_participants ∧
     (applyEventUpdate eventOneTwo emptyUpdate).image_url = eventOneTwo.image_url ∧
     (applyEventUpdate eventOneTwo fullUpdate).title = "T" ∧
     (applyEventUpdate eventOneTwo fullUpdate).description = "D" ∧
     (applyEventUpdate eventOneTwo fullUpdate).location = "L" ∧
     (applyEventUpdate eventOneTwo fullUpdate).event_date = 5 ∧
     (applyEventUpdate eventOneTwo fullUpdate).is_active = false ∧
     (applyEventUpdate eventOneTwo fullUpdate).max_participants = some 7 ∧
     (applyEventUpdate eventOneTwo fullUpdate).image_url = some "img" ∧
     (applyEventUpdate eventOneTwo fullUpdate).participants = eventOneTwo.participants) ∧
    ((update_user_profile user1 emptyProfileUpdate).birth_date = user1.birth_date ∧
     (update_user_profile user1 emptyProfileUpdate).gender = user1.gender ∧
     (update_user_profile user1 emptyProfileUpdate).interests = user1.interests ∧
     (update_user_profile user1 emptyProfileUpdate).joined_groups = user1.joined_groups ∧
     (update_user_profile user1 emptyProfileUpdate).onboarding_completed
        = user1.onboarding_completed ∧
     (update_user_profile user1 emptyProfileUpdate).profile_photo = user1.profile_photo ∧
     (update_user_profile user1 fullProfileUpdate).birth_date = some 7 ∧
     (update_user_profile user1 fullProfileUpdate).gender = some "g" ∧
     (update_user_profile user1 fullProfileUpdate).interests = ["music"] ∧
     (update_user_profile user1 fullProfileUpdate).joined_groups = [3] ∧
     (update_user_profile user1 fullProfileUpdate).onboarding_completed = some true ∧
     (update_user_profile user1 fullProfileUpdate).profile_photo = some "photo" ∧
     (update_user_profile user1 fullProfileUpdate).username = user1.username) := by
  obtain ⟨he, hu⟩ := C6_partial_update_frame
  obtain ⟨t1, _, d1, _, l1, _, ed1, _, a1, _, m1, _, i1, _, _, _, _⟩ :=
    he eventOneTwo user1 emptyUpdate (applyEventUpdate eventOneTwo emptyUpdate) rfl
  obtain ⟨_, t2, _, d2, _, l2, _, ed2, _, a2, _, m2, _, i2, _, _, hpart⟩ :=
    he eventOneTwo user1 fullUpdate (applyEventUpdate eventOneTwo fullUpdate) rfl
  obtain ⟨b1, _, g1, _, n1, _, j1, _, o1, _, p1, _, _, _, _, _⟩ :=
    hu user1 emptyProfileUpdate
  obtain ⟨_, b2, _, g2, _, n2, _, j2, _, o2, _, p2, _, husr, _, _⟩ :=
    hu user1 fullProfileUpdate
  refine ⟨⟨t1 rfl, d1 rfl, l1 rfl, ed1 rfl, a1 rfl, m1 rfl, i1 rfl,
      t2 "T" rfl, d2 "D" rfl, l2 "L" rfl, ed2 5 rfl, a2 false rfl,
      m2 (some 7) rfl, i2 (some "img") rfl, hpart⟩,
    ⟨b1 rfl, g1 rfl, n1 rfl, j1 rfl, o1 rfl, p1 rfl,
      b2 7 rfl, g2 "g" rfl, n2 ["music"] rfl, j2 [3] rfl, o2 true rfl,
      p2 "photo" rfl, husr⟩⟩

/-- C7: a user who is neither the event's creator nor an admin gets Forbidden
from both edit and soft-delete, and the stored event row is unchanged. -/
theorem C7_non_owner_forbidden (e : EventDB) (user : UserDB) (upd : EventUpdate)
    (hc : e.created_by ≠ user.id) (ha : user.is_admin = false) :
    update_event e user upd = .error .forbidden ∧
    delete_event e user = .error .forbidden ∧
    evStep e (.edit user upd) = e ∧
    evStep e (.softDelete user) = e := by
  have hcond : e.created_by ≠ user.id ∧ ¬ user.is_admin = true := ⟨hc, by simp [ha]⟩
  have hupd : update_event e user upd = .error .forbidden := by
    unfold update_event
    rw [if_pos hcond]
  have hdel : delete_event e user = .error .forbidden := by
    unfold delete_event
    rw [if_pos hcond]
  refine ⟨hupd, hdel, ?_, ?_⟩
  · simp only [evStep, hupd]
  · simp only [evStep, hdel]

theorem C7_non_owner_forbidden_witness :
    update_event eventOneTwo user2 fullUpdate = .error .forbidden ∧
    delete_event eventOneTwo user2 = .error .forbidden ∧
    evStep eventOneTwo (.edit user2 fullUpdate) = eventOneTwo ∧
    evStep eventOneTwo (.softDelete user2) = eventOneTwo :=
  C7_non_owner_forbidden eventOneTwo user2 fullUpdate (by decide) (by decide)

lemma findEvent_id (db : EventStore) (eid : Int) (e : EventDB)
    (h : findEvent db eid = some e) : e.id = eid := by
  have h2 := List.find?_some h
  simpa using h2

lemma findEvent_updateStore (db : EventStore) (eid : Int) (e e2 : EventDB)
    (h : findEvent db eid = some e) (h2 : e2.id = eid) :
    findEvent (updateStore db eid e2) eid = some e2 := by
  induction db with
  | nil => simp [findEvent] at h
  | cons x xs ih =>
      by_cases hx : x.id = eid
      · simp [findEvent, updateStore, List.find?, hx, h2]
      · have hxb : (x.id == eid) = false := by simp [hx]
        have h3 : findEvent xs eid = some e := by
          simpa [findEvent, List.find?, hxb] using h
        have h4 := ih h3
        simpa [findEvent, updateStore, List.find?, hxb] using h4

lemma updateStore_length (db : EventStore) (eid : Int) (e2 : EventDB) :
    (updateStore db eid e2).length = db.length := by
  simp [updateStore]

lemma mem_updateStore_of_id (db : EventStore) (eid : Int) (e2 x : EventDB)
    (hx : x ∈ updateStore db eid e2) (hid : x.id = eid) : x = e2 := by
  simp only [updateStore, List.mem_map] at hx
  obtain ⟨y, _, hxy⟩ := hx
  by_cases hyid : y.id = eid
  · rw [if_pos (by simp [hyid])] at hxy
    exact hxy.symm
  · rw [if_neg (by simp [hyid])] at hxy
    subst hxy
    exact absurd hid hyid

lemma mem_get_events (db : EventStore) (skip limit : Nat) (uid now : Int)
    (x : EventDB) (h : x ∈ get_events db skip limit none uid now) :
    x ∈ db ∧ x.is_active = true := by
  unfold get_events at h
  have h1 := List.take_subset _ _ h
  have h2 := List.drop_subset _ _ h1
  rw [List.mem_mergeSort] at h2
  exact List.mem_filter.mp h2

/-- C5: when the creator or an admin soft-deletes an event, the response is
the success message, the stored row is only deactivated (no row is removed,
all other fields keep their values), a subsequent get by id still returns
the row, and the default active listing excludes it. -/
theorem C5_soft_delete (db : EventStore) (user : UserDB) (eid : Int) (e : EventDB)
    (now : Int) (hfind : findEvent db eid = some e)
    (hperm : e.created_by = user.id ∨ user.is_admin = true) :
    (handle db (some user) now (.deleteEvent eid)).1
        = .ok (.message "Event successfully deleted") ∧
    (handle db (some user) now (.deleteEvent eid)).2.length = db.length ∧
    get_event (handle db (some user) now (.deleteEvent eid)).2 eid
        = .ok { e with is_active := false } ∧
    (∀ skip limit uid x,
      x ∈ get_events (handle db (some user) now (.deleteEvent eid)).2 skip limit none uid now →
      x.id ≠ eid) := by
  have hdel : delete_event e user = .ok { e with is_active := false } := by
    unfold delete_event
    rw [if_neg]
    rintro ⟨hne, hnadm⟩
    rcases hperm with hp | hp
    · exact hne hp
    · exact hnadm hp
  have hh : handle db (some user) now (.deleteEvent eid)
      = (.ok (.message "Event successfully deleted"),
          updateStore db eid { e with is_active := false }) := by
    simp only [handle, requireAuth, hfind, hdel]
  have hfst : (handle db (some user) now (.deleteEvent eid)).1
      = .ok (.message "Event successfully deleted") := by rw [hh]
  have hsnd : (handle db (some user) now (.deleteEvent eid)).2
      = updateStore db eid { e with is_active := false } := by rw [hh]
  rw [hfst, hsnd]
  refine ⟨rfl, updateStore_length db eid _, ?_, ?_⟩
  · unfold get_event
    rw [findEvent_updateStore db eid e { e with is_active := false } hfind
      (findEvent_id db eid e hfind)]
  · intro skip limit uid x hx hid
    obtain ⟨hmem, hact⟩ := mem_get_events _ skip limit uid now x hx
    have hxe := mem_updateStore_of_id db eid _ x hmem hid
    rw [hxe] at hact
    exact absurd hact (by simp)

theorem C5_soft_delete_witness :
    (handle [eventOneTwo] (some user1) 0 (.deleteEvent 10)).1
        = .ok (.message "Event successfully deleted") ∧
    (handle [eventOneTwo] (some user1) 0 (.deleteEvent 10)).2.length = 1 ∧
    get_event (handle [eventOneTwo] (some user1) 0 (.deleteEvent 10)).2 10
        = .ok { eventOneTwo with is_active := false } := by
  have h := C5_soft_delete [eventOneTwo] user1 10 eventOneTwo 0 (by rfl)
    (Or.inl (by decide))
  exact ⟨h.1, h.2.1, h.2.2.1⟩

/-- C8 as written is false: `get_event` declares no authentication
dependency, so a GET of an event by id with no valid bearer token does not
fail with Unauthenticated — it performs the lookup and returns the row. -/
theorem C8_counterexample :
    (handle [eventOneTwo] none 0 (.getEvent 10)).1 = .ok (.event eventOneTwo) ∧
    (handle [eventOneTwo] none 0 (.getEvent 10)).1 ≠ .error .unauthenticated := by
  have h : (handle [eventOneTwo] none 0 (.getEvent 10)).1 = .ok (.event eventOneTwo) := by
    rfl
  refine ⟨h, ?_⟩
  rw [h]
  simp

/-- C8 amended: every event-registry operation other than the GET-by-id
route rejects a request that carries no token resolving to a user record
with Unauthenticated and leaves the store untouched; GET-by-id alone runs
its lookup without any authentication check. -/
theorem C8_auth_required (db : EventStore) (now : Int) (req : Request)
    (h : ∀ eid, req ≠ .getEvent eid) :
    handle db none now req = (.error .unauthenticated, db) := by
  cases req with
  | getEvent eid => exact absurd rfl (h eid)
  | listEvents skip limit filter_type => rfl
  | createEvent ec newId => rfl
  | updateEvent eid upd => rfl
  | deleteEvent eid => rfl
  | joinEvent eid => rfl
  | leaveEvent eid => rfl

theorem C8_auth_required_witness :
    handle [eventOneTwo] none 0 (.joinEvent 10) = (.error .unauthenticated, [eventOneTwo]) :=
  C8_auth_required [eventOneTwo] 0 (.joinEvent 10) (fun _ h => Request.noConfusion h)
